import Mathlib

/-!
Verification of the MakeDB market-data collectors.

This file shallowly embeds the wire-protocol core of the repository:
the binary frame codec of `rithmic_binary_collector.py`
(`RithmicBinaryProtocol.send_message` / `receive_message` /
`parse_market_data`), the persistence adapters
(`RithmicCollector.store_tick_data` / `store_depth_data`,
`RTraderProDataCollector._handle_level2_data`), the text listener of
`rtrader_collector.py` (`RTraderProPlugin._listen`), the subscription
logic of both collectors, the connect-retry loop of
`RithmicCollector.run`, and the symbol-to-exchange resolver.

Modelling conventions:
  * bytes are `Nat` values below 256; byte strings are `List Nat`;
  * Python code that raises an uncaught exception is modelled with
    `Option`, `none` standing for the raised exception;
  * IEEE-754 doubles produced by `struct.unpack` with a `d` format are
    carried as their raw 64-bit big-endian bit patterns (a `Nat`); no
    claim in this development depends on float arithmetic, only on
    which fields are present and on Python truthiness of `0.0`;
  * `bytes.decode` with the `utf-8` codec is modelled on the ASCII
    subset (every byte below 128 decodes to itself, any byte of 128 or
    above is treated as a decode failure); every concrete input used
    below is plain ASCII, where this model agrees with Python;
  * Python `dict` messages are modelled by the structure `MsgDict`
    whose fields are `Option`-valued: `none` models an absent key;
  * the database sink is modelled as the list of rows a handler
    commits; a rolled-back transaction commits no rows.
-/

/-! ## Byte-level helpers -/

/-- Big-endian encoding of `v` into `w` bytes, as produced by
`struct.pack` with formats such as `>I`, `>H`, `>Q`. -/
def toBytesBE : Nat → Nat → List Nat
  | 0, _ => []
  | w + 1, v => toBytesBE w (v / 256) ++ [v % 256]

/-- Big-endian decoding of a byte string, as `struct.unpack` does. -/
def fromBytesBE (bs : List Nat) : Nat :=
  bs.foldl (fun acc b => acc * 256 + b) 0

/-- Model of `struct.unpack` reading one big-endian unsigned field of width `w`:
it raises `struct.error` (here `none`) unless the buffer has exactly
`w` bytes. -/
def unpackBE (w : Nat) (bs : List Nat) : Option Nat :=
  if bs.length = w then some (fromBytesBE bs) else none

/-- A Python slice `l[a:b]` with non-negative bounds: out-of-range
bounds are clamped, never an error. -/
def pySlice (l : List Nat) (a b : Nat) : List Nat :=
  (l.take b).drop a

/-- Model of `asyncio.StreamReader.readexactly n` on a stream whose remaining
bytes are `s`: returns the first `n` bytes and the rest of the stream,
or raises `IncompleteReadError` (here `none`) when the stream ends
before `n` bytes arrive.  The stream abstraction is what makes the
binary read path immune to chunk boundaries: `readexactly` buffers
across socket reads. -/
def readexactly (n : Nat) (s : List Nat) : Option (List Nat × List Nat) :=
  if n ≤ s.length then some (s.take n, s.drop n) else none

/-- Model of `bytes.decode` restricted to the ASCII subset (see the header
comment): all bytes must be below 128. -/
def decodeAscii (bs : List Nat) : Option String :=
  if bs.all (fun b => b < 128) then some (String.mk (bs.map Char.ofNat)) else none

/-! ## Frame codec (`RithmicBinaryProtocol`) -/

/-- The byte string written by `RithmicBinaryProtocol.send_message`:
`[length:uint32][type:uint16][payload]`, big-endian, with
`length = len(payload) + 2` accounting for the type field. -/
def encodeFrame (msgType : Nat) (data : List Nat) : List Nat :=
  toBytesBE 4 (data.length + 2) ++ toBytesBE 2 msgType ++ data

/-- Model of `RithmicBinaryProtocol.send_message`: `struct.pack` with format
`>IH` raises `struct.error` (caught, send reported failed, `none`)
unless the length fits a uint32 and the type fits a uint16; otherwise
the encoded frame is written to the socket. -/
def send_message (msgType : Nat) (data : List Nat) : Option (List Nat) :=
  if msgType < 2 ^ 16 ∧ data.length + 2 < 2 ^ 32 then some (encodeFrame msgType data)
  else none

/-- Model of `RithmicBinaryProtocol.receive_message` on a stream `s`: reads a
4-byte length, a 2-byte type, then `length - 2` payload bytes (none
when `length - 2` is not positive), returning the decoded
`(type, payload)` pair and the unconsumed rest of the stream; `none`
models `IncompleteReadError` (connection closed mid-frame), after
which the protocol marks itself disconnected. -/
def receive_message (s : List Nat) : Option ((Nat × List Nat) × List Nat) := do
  let (lengthData, s1) ← readexactly 4 s
  let msgLength := fromBytesBE lengthData
  let (typeData, s2) ← readexactly 2 s1
  let msgType := fromBytesBE typeData
  let dataLength := msgLength - 2
  if 0 < dataLength then
    let (data, s3) ← readexactly dataLength s2
    pure ((msgType, data), s3)
  else
    pure ((msgType, []), s2)

/-! ## Symbol/exchange resolver -/

/-- The table `SYMBOL_EXCHANGE_MAP` from `rithmic_binary_collector.py`, in
declaration order (Python dicts iterate in insertion order). -/
def SYMBOL_EXCHANGE_MAP : List (String × String) :=
  [("GC", "COMEX"), ("MGC", "COMEX"), ("GLD", "COMEX"),
   ("CL", "NYMEX"), ("NG", "NYMEX"), ("RB", "NYMEX"), ("HO", "NYMEX"),
   ("ES", "CME"), ("NQ", "CME"), ("YM", "CBOT"), ("RTY", "CME"),
   ("6A", "CME"), ("6B", "CME"), ("6C", "CME"), ("6E", "CME"),
   ("6J", "CME"), ("6S", "CME"),
   ("ZC", "CBOT"), ("ZS", "CBOT"), ("ZW", "CBOT"), ("ZL", "CBOT"), ("ZM", "CBOT"),
   ("SI", "COMEX"), ("HG", "COMEX"), ("PA", "NYMEX"), ("PL", "NYMEX")]

/-- Python `str.startswith`. -/
def strStartsWith (s p : String) : Bool :=
  p.toList.isPrefixOf s.toList

/-- Python `symbol.rstrip(stripped)` for `stripped = "0123456789"`:
removes every trailing decimal-digit character. -/
def rstripDigits (s : String) : String :=
  String.mk (s.toList.reverse.dropWhile (fun c => c.isDigit)).reverse

/-- The `for prefix, exchange in SYMBOL_EXCHANGE_MAP.items()` loop of
`get_exchange_for_symbol`: first entry whose key prefixes `base`. -/
def exchangeLoop : List (String × String) → String → Option String
  | [], _ => none
  | (p, e) :: rest, base =>
    if strStartsWith base p then some e else exchangeLoop rest base

/-- Model of `RithmicCollector.get_exchange_for_symbol`: strip the trailing
month/year digits, scan the static table, default to `"CME"`. -/
def get_exchange_for_symbol (symbol : String) : String :=
  match exchangeLoop SYMBOL_EXCHANGE_MAP (rstripDigits symbol) with
  | some e => e
  | none => "CME"

/-! ## Message dictionaries (`parse_market_data` and the JSON handlers) -/

/-- One price level inside the `bids` / `asks` value of a depth
message dictionary. `none` models an absent key. -/
structure DLevel where
  price : Option Nat := none
  size : Option Nat := none
  order_count : Option Nat := none
deriving DecidableEq, Repr

/-- A Python message `dict` as the collectors use it: every key that
any handler reads is a field, `none` modelling an absent key.  Prices
are raw 64-bit patterns, timestamps raw integer values (see header). -/
structure MsgDict where
  type : String := ""
  symbol : Option String := none
  exchange : Option String := none
  price : Option Nat := none
  size : Option Nat := none
  timestamp : Option Nat := none
  bid_price : Option Nat := none
  bid_size : Option Nat := none
  ask_price : Option Nat := none
  ask_size : Option Nat := none
  aggressor : Option Nat := none
  trade_id : Option Nat := none
  bids : List DLevel := []
  asks : List DLevel := []
deriving DecidableEq, Repr

/-- The table `RITHMIC_MSG_TYPES` from `rithmic_binary_collector.py`. -/
def RITHMIC_MSG_TYPES : List (Nat × String) :=
  [(100, "MARKET_DATA_REQUEST"), (101, "MARKET_DATA_RESPONSE"),
   (102, "LAST_TRADE"), (103, "BID_OFFER"), (104, "MARKET_MODE"),
   (105, "OPEN_INTEREST"), (106, "SETTLEMENT_PRICE"),
   (107, "MARKET_DEPTH_REQUEST"), (108, "MARKET_DEPTH_RESPONSE"),
   (109, "MARKET_DEPTH_UPDATE"), (110, "TRADE_VOLUME"),
   (111, "OPEN_RANGE"), (112, "HIGH_LOW"), (113, "TRADE_STATISTICS"),
   (200, "HISTORY_REQUEST"), (201, "HISTORY_RESPONSE"),
   (202, "HISTORY_TICK"), (203, "HISTORY_BAR"),
   (300, "PNL_REQUEST"), (301, "PNL_RESPONSE"), (302, "PNL_UPDATE")]

/-- Model of `RITHMIC_MSG_TYPES.get(msg_type, "UNKNOWN")`. -/
def msgTypeName (msgType : Nat) : String :=
  match RITHMIC_MSG_TYPES.find? (fun te => te.1 = msgType) with
  | some te => te.2
  | none => "UNKNOWN"

/-- Model of `RithmicBinaryProtocol.parse_market_data`.  The function is not
wrapped in try/except in the source, so a `struct.unpack` on a slice
of the wrong width — possible when the embedded symbol-length field
claims more bytes than the payload holds — or a failing
`bytes.decode` raises out of the parser; `none` models that uncaught
exception.  Payloads shorter than the guard (`24` for `LAST_TRADE`,
`32` for `BID_OFFER`) and all other message types, including the
stubbed `MARKET_DEPTH_UPDATE`, produce a dictionary holding only the
`type` name. -/
def parse_market_data (msgType : Nat) (data : List Nat) : Option MsgDict :=
  let base : MsgDict := { type := msgTypeName msgType }
  if msgType = 102 then
    if 24 ≤ data.length then do
      let symbolLen ← unpackBE 4 (pySlice data 0 4)
      let symbol ← decodeAscii (pySlice data 4 (4 + symbolLen))
      let offset := 4 + symbolLen
      let price ← unpackBE 8 (pySlice data offset (offset + 8))
      let size ← unpackBE 4 (pySlice data (offset + 8) (offset + 12))
      let ts ← unpackBE 8 (pySlice data (offset + 12) (offset + 20))
      some { base with
        symbol := some symbol, price := some price,
        size := some size, timestamp := some ts }
    else some base
  else if msgType = 103 then
    if 32 ≤ data.length then do
      let symbolLen ← unpackBE 4 (pySlice data 0 4)
      let symbol ← decodeAscii (pySlice data 4 (4 + symbolLen))
      let offset := 4 + symbolLen
      let bidPrice ← unpackBE 8 (pySlice data offset (offset + 8))
      let bidSize ← unpackBE 4 (pySlice data (offset + 8) (offset + 12))
      let askPrice ← unpackBE 8 (pySlice data (offset + 12) (offset + 20))
      let askSize ← unpackBE 4 (pySlice data (offset + 20) (offset + 24))
      some { base with
        symbol := some symbol,
        bid_price := some bidPrice, bid_size := some bidSize,
        ask_price := some askPrice, ask_size := some askSize }
    else some base
  else
    some base

/-! ## Persistence sink adapters -/

/-- A row of the `tick_data` table as built by
`RithmicCollector.store_tick_data`. -/
structure TickRow where
  timestamp : Nat
  symbol : String
  exchange : String
  price : Nat
  size : Nat
  bid_price : Option Nat := none
  ask_price : Option Nat := none
  bid_size : Option Nat := none
  ask_size : Option Nat := none
  aggressor_side : Option String := none
  trade_id : Option Nat := none
deriving DecidableEq, Repr

/-- Python truthiness of a float field read with `data.get(key)`:
false when the key is absent or the value is `0.0` (either sign of
zero, the two bit patterns whose magnitude bits are all zero). -/
def floatTruthy : Option Nat → Bool
  | none => false
  | some bits => bits % 2 ^ 63 ≠ 0

/-- Model of `RithmicCollector.store_tick_data`: drops the record (no row, no
error) unless both the `symbol` and `price` keys are present;
otherwise commits exactly one row, defaulting `timestamp` to the call
time and `size` to 0, nulling falsy bid/ask prices, and resolving the
exchange with `get_exchange_for_symbol`. -/
def store_tick_data (m : MsgDict) (now : Nat) : Option TickRow :=
  match m.symbol, m.price with
  | some sym, some pr =>
    some { timestamp := m.timestamp.getD now
           symbol := sym
           exchange := get_exchange_for_symbol sym
           price := pr
           size := m.size.getD 0
           bid_price := if floatTruthy m.bid_price then m.bid_price else none
           ask_price := if floatTruthy m.ask_price then m.ask_price else none
           bid_size := m.bid_size
           ask_size := m.ask_size
           aggressor_side := m.aggressor.map (fun a => if a = 1 then "BUY" else "SELL")
           trade_id := m.trade_id }
  | _, _ => none

/-- A row of the `level2_data` table.  The plugin-collector insert has
no `order_count` column (`none`); `symbol` is nullable because
`_handle_level2_data` inserts `data.get` of the symbol key, unchecked. -/
structure Level2Row where
  timestamp : Nat
  symbol : Option String
  exchange : String
  side : String
  level : Nat
  price : Nat
  size : Nat
  order_count : Option Nat := none
deriving DecidableEq, Repr

/-- One side of `RithmicCollector.store_depth_data`: levels are
enumerated from 1 in input order; the price and size keys of a level
are mandatory `bid[key]` lookups, so an absent key raises `KeyError`, caught by
the surrounding try/except which rolls the transaction back (`none`:
no rows committed). -/
def storeDepthSide (sym : String) (ts : Nat) (side : String)
    (levels : List DLevel) : Option (List Level2Row) :=
  levels.enum.mapM (fun il => do
    let p ← il.2.price
    let sz ← il.2.size
    pure { timestamp := ts
           symbol := some sym
           exchange := get_exchange_for_symbol sym
           side := side
           level := il.1 + 1
           price := p
           size := sz
           order_count := some (il.2.order_count.getD 1) : Level2Row })

/-- Model of `RithmicCollector.store_depth_data`: returns early (no rows) when
`symbol` is absent; otherwise inserts one row per bid level then one
per ask level — with no truncation of either side — committing at the
end; any error rolls back every row of the call. -/
def store_depth_data (m : MsgDict) (now : Nat) : List Level2Row :=
  match m.symbol with
  | none => []
  | some sym =>
    let ts := m.timestamp.getD now
    match storeDepthSide sym ts "B" m.bids, storeDepthSide sym ts "S" m.asks with
    | some bRows, some aRows => bRows ++ aRows
    | _, _ => []

/-- One side of `RTraderProDataCollector._handle_level2_data`: Python
slices the levels with `[:10]` before enumerating, keys default to 0
via `.get`, and the insert has no order-count column. -/
def handleLevel2Side (m : MsgDict) (ts : Nat) (side : String)
    (levels : List DLevel) : List Level2Row :=
  (levels.take 10).enum.map (fun il =>
    { timestamp := ts
      symbol := m.symbol
      exchange := m.exchange.getD "CME"
      side := side
      level := il.1 + 1
      price := il.2.price.getD 0
      size := il.2.size.getD 0
      order_count := none })

/-- Model of `RTraderProDataCollector._handle_level2_data`: commits the top 10
bid levels then the top 10 ask levels of the message (the source also
prunes rows older than one minute in the same transaction; that purely
storage-hygiene delete is not part of the inserted-row model). -/
def handle_level2_data (m : MsgDict) (now : Nat) : List Level2Row :=
  let ts := m.timestamp.getD now
  handleLevel2Side m ts "B" m.bids ++ handleLevel2Side m ts "S" m.asks

/-! ## Message dispatch (`RithmicCollector.process_messages`) -/

/-- One iteration of `RithmicCollector.process_messages` after a frame
`(msgType, data)` has been received: parse, then route by type code.
The result is the pair of committed tick rows and depth rows; `none`
models an exception escaping the loop body (nothing in the loop
catches one), which terminates `process_messages` and with it the
collector run. -/
def process_message (msgType : Nat) (data : List Nat) (now : Nat) :
    Option (List TickRow × List Level2Row) :=
  match parse_market_data msgType data with
  | none => none
  | some m =>
    if msgType = 102 then some ((store_tick_data m now).toList, [])
    else if msgType = 103 then some ((store_tick_data m now).toList, [])
    else if msgType = 109 then some ([], store_depth_data m now)
    else some ([], [])

/-! ## Text listener (`RTraderProPlugin._listen`) -/

/-- Python `str.split(sep)` for a one-character separator: splits the
character list at every occurrence of `sep`, keeping empty pieces. -/
def splitOnChar (sep : Char) : List Char → List (List Char)
  | [] => [[]]
  | c :: rest =>
    match splitOnChar sep rest with
    | [] => [[]]
    | l :: ls => if c = sep then [] :: l :: ls else (c :: l) :: ls

/-- The ASCII whitespace characters Python `str.strip()` removes. -/
def pyIsSpace (c : Char) : Bool :=
  c = ' ' ∨ c = '\t' ∨ c = '\n' ∨ c = '\r' ∨ c = '\x0b' ∨ c = '\x0c'

/-- Python `str.strip()`: drop leading and trailing whitespace. -/
def pyStrip (cs : List Char) : List Char :=
  ((cs.dropWhile pyIsSpace).reverse.dropWhile pyIsSpace).reverse

/-- The message strings one iteration of `RTraderProPlugin._listen`
passes to `json.loads`, for the chunk returned by one
`socket.recv(4096)` call: the chunk is stripped, split on newlines,
and each non-empty piece is handed to the JSON parser on its own.
There is no carry-over buffer between iterations. -/
def listenChunkMessages (chunk : String) : List String :=
  ((splitOnChar '\n' (pyStrip chunk.toList)).map String.mk).filter (fun s => s ≠ "")

/-- The full sequence of strings `_listen` hands to `json.loads` when
the socket delivers the stream as the given chunks. -/
def listenCandidates (chunks : List String) : List String :=
  chunks.flatMap listenChunkMessages

/-! ## Subscription tracking -/

/-- Python `in` on a collection of strings. -/
def pyContains (st : List String) (x : String) : Bool :=
  st.any (fun y => decide (y = x))

/-- Adding an element to a Python `set` (modelled as a duplicate-free
list): a no-op when already present. -/
def setAdd (st : List String) (x : String) : List String :=
  if pyContains st x then st else x :: st

/-- The key under which `RTraderProDataCollector.check_new_subscriptions`
tracks a control-queue request. -/
def subKey (sym exch : String) : String :=
  sym ++ ":" ++ exch

/-- Model of `RTraderProDataCollector.check_new_subscriptions`, one poll:
`msg` is the popped queue entry (`none` when the queue was empty) and
`sendOk` the result of `subscribe_market_data`.  Returns the updated
`subscribed_symbols` set and the subscribe frames that reached the
wire, as (symbol, exchange) pairs. -/
def check_new_subscriptions (st : List String) (msg : Option (String × String))
    (sendOk : Bool) : List String × List (String × String) :=
  match msg with
  | none => (st, [])
  | some (sym, exch) =>
    if pyContains st (subKey sym exch) then (st, [])
    else if sendOk then (setAdd st (subKey sym exch), [(sym, exch)])
    else (st, [])

/-- Model of `RithmicCollector.check_new_subscriptions`, one poll: dedup is by
bare symbol against the `self.symbols` list (the exchange of the
request is ignored); a new symbol is appended and, when the protocol
is connected, one `MARKET_DATA_REQUEST` frame carrying the symbol and
its resolved exchange is sent. -/
def check_new_binary (symbols : List String) (msg : Option String)
    (connected : Bool) : List String × List (String × String) :=
  match msg with
  | none => (symbols, [])
  | some sym =>
    if pyContains symbols sym then (symbols, [])
    else (symbols ++ [sym],
          if connected then [(sym, get_exchange_for_symbol sym)] else [])

/-- One iteration of the loop in
`RTraderProDataCollector.subscribe_symbols` for an environment token:
a token with one colon splits into symbol and exchange, one without
gets the default `"CME"`; a token with two or more colons makes the
tuple unpacking raise `ValueError`, aborting the run before any
mutation.  The configured token itself (not the symbol:exchange key)
is added to the set when the send succeeds. -/
def subscribeToken (acc : List String × List (String × String)) (tok : String) :
    List String × List (String × String) :=
  match (splitOnChar ':' tok.toList).map String.mk with
  | [s] => (setAdd acc.1 tok, acc.2 ++ [(s, "CME")])
  | [s, e] => (setAdd acc.1 tok, acc.2 ++ [(s, e)])
  | _ => acc

/-- Model of `RTraderProDataCollector.subscribe_symbols` over the environment
symbol list, with every send succeeding. -/
def subscribe_symbols (tokens : List String) : List String × List (String × String) :=
  tokens.foldl subscribeToken ([], [])

/-- A run of the plugin collector: startup subscription of the
environment tokens followed by a sequence of control-queue polls, all
sends succeeding.  Returns the final subscription set and every
subscribe frame sent to the wire, in order. -/
def text_run (tokens : List String) (queue : List (Option (String × String))) :
    List String × List (String × String) :=
  queue.foldl
    (fun acc msg =>
      let r := check_new_subscriptions acc.1 msg true
      (r.1, acc.2 ++ r.2))
    (subscribe_symbols tokens)

/-- The operations of the plugin collector that can touch its
`subscribed_symbols` set: one startup-token subscription, or one
control-queue poll. -/
inductive TextOp where
  | initToken (tok : String) (sendOk : Bool)
  | poll (msg : Option (String × String)) (sendOk : Bool)

/-- Effect of a plugin-collector operation on the subscription set. -/
def stepText : TextOp → List String → List String
  | .initToken tok sendOk, st =>
    match (splitOnChar ':' tok.toList).map String.mk with
    | [_] => if sendOk then setAdd st tok else st
    | [_, _] => if sendOk then setAdd st tok else st
    | _ => st
  | .poll msg sendOk, st => (check_new_subscriptions st msg sendOk).1

/-- The operations of the binary collector that can touch its
`self.symbols` list: only the control-queue poll mutates it. -/
inductive BinaryOp where
  | poll (msg : Option String) (connected : Bool)

/-- Effect of a binary-collector operation on the symbols list. -/
def stepBinary : BinaryOp → List String → List String
  | .poll msg connected, symbols => (check_new_binary symbols msg connected).1

/-! ## Connect retry loop (`RithmicCollector.run`) -/

/-- The `while retry_count < 5` connect loop of
`RithmicCollector.run`: `oracle k` is the outcome of the k-th connect
attempt (0-based); each failure increments the count and sleeps 5
seconds; a success breaks out immediately.  Returns the final retry
count, total seconds slept, and whether the protocol connected. -/
def retryLoop (oracle : Nat → Bool) : Nat → Nat → Nat → Nat × Nat × Bool
  | 0, rc, slept => (rc, slept, false)
  | fuel + 1, rc, slept =>
    if oracle rc then (rc, slept, true)
    else retryLoop oracle fuel (rc + 1) (slept + 5)

/-- The connect phase of `RithmicCollector.run`: at most 5 attempts;
`run` proceeds past the retry loop (to subscribing and message
processing) exactly when the third component is true, and otherwise
logs a fatal error and returns. -/
def run_connect (oracle : Nat → Bool) : Nat × Nat × Bool :=
  retryLoop oracle 5 0 0

/-! ## Concrete inputs used in the theorems below -/

/-- A well-formed `BID_OFFER` payload: symbol length 4, symbol
`"ESU5"`, then bid price, bid size, ask price, ask size — 32 bytes. -/
def bidOfferPayload : List Nat :=
  toBytesBE 4 4 ++ [69, 83, 85, 53] ++
    [64, 172, 1, 0, 0, 0, 0, 0] ++ toBytesBE 4 5 ++
    [64, 172, 2, 0, 0, 0, 0, 0] ++ toBytesBE 4 7

/-- A `LAST_TRADE` payload of exactly 24 bytes whose symbol-length
field claims 100 bytes: the guard `len(data) >= 24` passes, the
symbol slice silently yields only 20 bytes, and the price unpack then
runs on an empty slice. -/
def overclaimPayload : List Nat :=
  toBytesBE 4 100 ++ List.replicate 20 65

/-- A depth message with 15 bid levels (prices 100..114, sizes 1) and
no asks. -/
def depth15 : MsgDict :=
  { symbol := some "GCQ5"
    bids := (List.range 15).map (fun i => { price := some (100 + i), size := some 1 }) }

/-! ## Theorems -/

theorem toBytesBE_length (w v : Nat) : (toBytesBE w v).length = w := by
  induction w generalizing v with
  | zero => rfl
  | succ w ih => simp [toBytesBE, ih]

theorem fromBytesBE_append_one (bs : List Nat) (b : Nat) :
    fromBytesBE (bs ++ [b]) = fromBytesBE bs * 256 + b := by
  simp [fromBytesBE]

theorem fromBytesBE_toBytesBE (w v : Nat) (h : v < 256 ^ w) :
    fromBytesBE (toBytesBE w v) = v := by
  induction w generalizing v with
  | zero =>
    simp [toBytesBE, fromBytesBE]
    omega
  | succ w ih =>
    have hlt : v / 256 < 256 ^ w := by
      rw [Nat.div_lt_iff_lt_mul (by norm_num)]
      calc v < 256 ^ (w + 1) := h
        _ = 256 ^ w * 256 := by ring
    simp [toBytesBE, fromBytesBE_append_one, ih _ hlt]
    omega

theorem readexactly_append (pre post : List Nat) :
    readexactly pre.length (pre ++ post) = some (pre, post) := by
  simp [readexactly]

/-- Helper: decoding a stream that begins with an encoded frame
consumes exactly that frame and returns its type and payload. -/
theorem receive_message_encodeFrame (t : Nat) (p rest : List Nat)
    (ht : t < 2 ^ 16) (hp : p.length + 2 < 2 ^ 32) :
    receive_message (encodeFrame t p ++ rest) = some ((t, p), rest) := by
  have h4 : (toBytesBE 4 (p.length + 2)).length = 4 := toBytesBE_length 4 _
  have h2 : (toBytesBE 2 t).length = 2 := toBytesBE_length 2 t
  have hL : fromBytesBE (toBytesBE 4 (p.length + 2)) = p.length + 2 :=
    fromBytesBE_toBytesBE 4 _ (by norm_num at hp ⊢; omega)
  have hT : fromBytesBE (toBytesBE 2 t) = t :=
    fromBytesBE_toBytesBE 2 t (by norm_num at ht ⊢; omega)
  have step1 : readexactly 4 (encodeFrame t p ++ rest) =
      some (toBytesBE 4 (p.length + 2), toBytesBE 2 t ++ p ++ rest) := by
    have := readexactly_append (toBytesBE 4 (p.length + 2)) (toBytesBE 2 t ++ p ++ rest)
    simpa [encodeFrame, h4] using this
  have step2 : readexactly 2 (toBytesBE 2 t ++ p ++ rest) =
      some (toBytesBE 2 t, p ++ rest) := by
    have := readexactly_append (toBytesBE 2 t) (p ++ rest)
    simpa [h2] using this
  have step3 : readexactly p.length (p ++ rest) = some (p, rest) :=
    readexactly_append p rest
  simp only [receive_message, step1, Option.bind_eq_bind, Option.some_bind, hL, hT, step2,
    Nat.add_sub_cancel]
  by_cases hp0 : 0 < p.length
  · simp [hp0, step3]
  · have hnil : p = [] := List.eq_nil_of_length_eq_zero (by omega)
    subst hnil
    simp

/-- Claim C1: for every valid (message type, payload) pair — a type
fitting in a uint16 and a payload whose length plus 2 fits in a
uint32 — `send_message` produces the big-endian
`[length:uint32][type:uint16][payload]` frame with
`length = payload bytes + 2`, and `receive_message` applied to that
frame yields back exactly the original type and payload, consuming the
whole frame: decode is a left inverse of encode. -/
theorem framing_roundtrip (t : Nat) (p : List Nat)
    (ht : t < 2 ^ 16) (hp : p.length + 2 < 2 ^ 32) :
    send_message t p = some (encodeFrame t p) ∧
    receive_message (encodeFrame t p) = some ((t, p), []) := by
  refine ⟨by simp [send_message]; omega, ?_⟩
  have := receive_message_encodeFrame t p [] ht hp
  simpa using this

/-- Witness for C1: the round trip evaluated at type 102 and payload
`[1, 2, 3]`. -/
theorem framing_roundtrip_witness :
    102 < 2 ^ 16 ∧ [1, 2, 3].length + 2 < 2 ^ 32 ∧
    (send_message 102 [1, 2, 3] = some (encodeFrame 102 [1, 2, 3]) ∧
     receive_message (encodeFrame 102 [1, 2, 3]) = some ((102, [1, 2, 3]), [])) :=
  ⟨by norm_num, by norm_num, framing_roundtrip 102 [1, 2, 3] (by norm_num) (by norm_num)⟩

/-- Claim C2 (code bug, text path): the plugin listener parses each
`recv` chunk independently.  A JSON frame delivered across two socket
reads is handed to `json.loads` as the two fragments
`{"type":"TICK` and `}` — neither of which is the frame — whereas the
same bytes arriving in one read are handed over as the single complete
frame `{"type":"TICK"}`: the chunked and whole-stream decodings
differ, so the frame is dropped (both fragments fail JSON parsing)
instead of being decoded once.  (The binary path is chunk-safe:
`receive_message` reads through `readexactly`, which buffers across
socket reads — see `receive_message_encodeFrame`.) -/
theorem listener_splits_frames :
    listenCandidates ["\x7b\"type\":\"TICK\"", "\x7d\n"] =
      ["\x7b\"type\":\"TICK\"", "\x7d"] ∧
    listenChunkMessages "\x7b\"type\":\"TICK\"\x7d\n" = ["\x7b\"type\":\"TICK\"\x7d"] := by
  constructor
  · decide
  · decide

/-- Counterexample for C3: a frame whose length field implies a
payload of 2^24 + 1 bytes — one byte more than 16 MiB — is decoded
successfully by `receive_message` (which would need to return `none`,
dropping the connection, for the claim to hold): the code has no
maximum-frame-size check at all. -/
theorem oversized_frame_decoded :
    receive_message (encodeFrame 102 (List.replicate (2 ^ 24 + 1) 0)) =
      some ((102, List.replicate (2 ^ 24 + 1) 0), []) := by
  have h := receive_message_encodeFrame 102 (List.replicate (2 ^ 24 + 1) 0) []
    (by norm_num) (by rw [List.length_replicate]; norm_num)
  rwa [List.append_nil] at h

/-- Claim C3 as amended: the decoder applies no maximum to the length
field; for every payload size whose length field fits a uint32, the
frame — however large — is read in full and returned rather than
classified corrupt. -/
theorem no_max_frame_size (n : Nat) (h : n + 2 < 2 ^ 32) :
    receive_message (encodeFrame 102 (List.replicate n 0)) =
      some ((102, List.replicate n 0), []) := by
  have hr := receive_message_encodeFrame 102 (List.replicate n 0) []
    (by norm_num) (by rw [List.length_replicate]; exact h)
  rwa [List.append_nil] at hr

/-- Witness for the amended C3 at payload size 5. -/
theorem no_max_frame_size_witness :
    5 + 2 < 2 ^ 32 ∧
    receive_message (encodeFrame 102 (List.replicate 5 0)) =
      some ((102, List.replicate 5 0), []) :=
  ⟨by norm_num, no_max_frame_size 5 (by norm_num)⟩

theorem parse103_price_none (data : List Nat) (m : MsgDict)
    (h : parse_market_data 103 data = some m) : m.price = none := by
  rw [parse_market_data] at h
  norm_num at h
  split at h
  · rw [Option.bind_eq_some] at h
    obtain ⟨a, -, h⟩ := h
    rw [Option.bind_eq_some] at h
    obtain ⟨b, -, h⟩ := h
    rw [Option.bind_eq_some] at h
    obtain ⟨c, -, h⟩ := h
    rw [Option.bind_eq_some] at h
    obtain ⟨d, -, h⟩ := h
    rw [Option.bind_eq_some] at h
    obtain ⟨e, -, h⟩ := h
    rw [Option.bind_eq_some] at h
    obtain ⟨f, -, h⟩ := h
    cases h
    rfl
  · cases h
    rfl

theorem store_tick_no_price (m : MsgDict) (now : Nat)
    (h : m.price = none) : store_tick_data m now = none := by
  rw [store_tick_data, h]
  cases m.symbol <;> rfl

/-- Claim C4 (code bug): a `BID_OFFER` message parses into a
dictionary carrying bid/ask price and size with the trade-side
`price` key absent, and is routed to `store_tick_data` — but that
function drops every record lacking a `price` key, so no `BID_OFFER`
message ever produces a `tick_data` row: for every payload (the
concrete well-formed 32-byte `bidOfferPayload` included, second and
third conjuncts), parsing as type 103 and storing yields no row. -/
theorem bid_offer_never_inserted :
    (∀ (data : List Nat) (now : Nat),
      (parse_market_data 103 data).bind (fun m => store_tick_data m now) = none) ∧
    (parse_market_data 103 bidOfferPayload).isSome = true ∧
    (parse_market_data 103 bidOfferPayload).bind (fun m => store_tick_data m 0) = none := by
  refine ⟨?_, by decide, by decide⟩
  intro data now
  cases hp : parse_market_data 103 data with
  | none => rfl
  | some m =>
    simpa using store_tick_no_price m now (parse103_price_none data m hp)

/-- Counterexample for C5: a depth message with 15 bid levels handed
to the binary collector depth store yields 15 committed bid rows, not
the 10 the claim requires: `store_depth_data` has no per-side
truncation. -/
theorem binary_depth_fifteen_rows :
    depth15.bids.length = 15 ∧
    (store_depth_data depth15 0).length = 15 ∧
    (store_depth_data depth15 0).all (fun r => decide (r.side = "B")) = true := by
  refine ⟨by decide, by decide, by decide⟩

theorem enum_map_fst_succ {α : Type} (l : List α) :
    l.enum.map (fun il => il.1 + 1) = List.range' 1 l.length := by
  have h1 : l.enum.map (fun il => il.1 + 1) = (l.enum.map Prod.fst).map (fun i => i + 1) := by
    rw [List.map_map]; rfl
  rw [h1, List.enum_map_fst, List.range'_eq_map_range]
  exact List.map_congr_left (fun i _ => Nat.add_comm i 1)

/-- Claim C5 as amended: the text/plugin collector truncates every
depth update to at most 10 levels per side, ranked 1 upward in input
order — a 15-bid input yields exactly rows (B, 1, 100) .. (B, 10, 109)
— but the binary collector depth store performs no truncation and
commits all 15 levels, ranked 1 through 15 in input order. -/
theorem depth_truncation_amended :
    (∀ (m : MsgDict) (ts : Nat),
      (handleLevel2Side m ts "B" m.bids).length = min 10 m.bids.length ∧
      (handleLevel2Side m ts "S" m.asks).length = min 10 m.asks.length ∧
      (handleLevel2Side m ts "B" m.bids).map Level2Row.level
        = List.range' 1 (min 10 m.bids.length)) ∧
    (handle_level2_data depth15 0).map (fun r => (r.side, r.level, r.price))
      = (List.range 10).map (fun i => ("B", i + 1, 100 + i)) ∧
    (store_depth_data depth15 0).map Level2Row.level = List.range' 1 15 := by
  refine ⟨?_, by decide, by decide⟩
  intro m ts
  refine ⟨?_, ?_, ?_⟩
  · simp [handleLevel2Side]
  · simp [handleLevel2Side]
  · rw [handleLevel2Side, List.map_map]
    have h := enum_map_fst_succ (m.bids.take 10)
    rw [List.length_take] at h
    exact h

/-- Claim C6 (code bug): an unrecognized message type never reaches
the sink and never raises (third conjunct: for every payload, the
dispatch of type 999 commits nothing and continues), but a
`LAST_TRADE` frame whose 24-byte payload carries a symbol-length
field of 100 makes `parse_market_data` unpack the price from an empty
slice: `struct.error` is raised, nothing catches it, and the message
loop dies (first conjunct: dispatch is `none`, the modelled uncaught
exception) — instead of the claimed log-and-drop. -/
theorem unknown_survives_overclaim_crashes :
    process_message 102 overclaimPayload 0 = none ∧
    overclaimPayload.length = 24 ∧
    (∀ (data : List Nat) (now : Nat), process_message 999 data now = some ([], [])) := by
  refine ⟨by decide, by decide, ?_⟩
  intro data now
  rfl

/-- Counterexample for C7: with the default-style environment symbol
list containing the bare token `"NQU5"` and the control queue
delivering `("NQU5", "CME")` twice, the whole run sends two subscribe
frames for that pair, not one: the startup path tracks the raw token
while the queue path tracks `"NQU5:CME"`, so the first queue delivery
is not recognized as already subscribed. -/
theorem duplicate_pair_two_frames :
    ((text_run ["NQU5"] [some ("NQU5", "CME"), some ("NQU5", "CME")]).2).countP
      (fun fr => decide (fr = ("NQU5", "CME"))) = 2 := by
  decide

/-- Claim C7 as amended: within the control-queue path subscribing is
idempotent — a poll sends at most one frame, and a second delivery of
the same {symbol, exchange} request is a no-op (no frame, state
unchanged) in both collectors; but a pair already subscribed at
startup under a bare environment token is tracked under a different
key in the plugin collector, so one extra frame for the same pair can
occur over a whole run (see the counterexample). -/
theorem second_queue_delivery_noop :
    (∀ (st : List String) (sym exch : String),
      (check_new_subscriptions st (some (sym, exch)) true).2.length ≤ 1 ∧
      (check_new_subscriptions (check_new_subscriptions st (some (sym, exch)) true).1
          (some (sym, exch)) true).2 = [] ∧
      (check_new_subscriptions (check_new_subscriptions st (some (sym, exch)) true).1
          (some (sym, exch)) true).1
        = (check_new_subscriptions st (some (sym, exch)) true).1) ∧
    (∀ (symbols : List String) (sym : String) (connected : Bool),
      (check_new_binary symbols (some sym) connected).2.length ≤ 1 ∧
      (check_new_binary (check_new_binary symbols (some sym) connected).1
          (some sym) connected).2 = [] ∧
      (check_new_binary (check_new_binary symbols (some sym) connected).1
          (some sym) connected).1
        = (check_new_binary symbols (some sym) connected).1) := by
  constructor
  · intro st sym exch
    by_cases h : pyContains st (subKey sym exch)
    · simp [check_new_subscriptions, h]
    · have hf : pyContains st (subKey sym exch) = false := by
        simpa using h
      have h2 : pyContains (setAdd st (subKey sym exch)) (subKey sym exch) = true := by
        unfold setAdd
        rw [if_neg h]
        simp [pyContains]
      simp [check_new_subscriptions, hf, h2]
  · intro symbols sym connected
    by_cases h : pyContains symbols sym
    · simp [check_new_binary, h]
    · have hf : pyContains symbols sym = false := by
        simpa using h
      have h2 : pyContains (symbols ++ [sym]) sym = true := by
        simp [pyContains]
      simp [check_new_binary, hf, h2]
      cases connected <;> simp

/-- Claim C8: the initial-connect loop of `RithmicCollector.run` is
fully characterized by the outcomes of the at most five attempts it
makes: the retry count equals the number of leading failures among
attempts 0..4 (so at most 5 attempts ever run, and the loop stops at
the first success), the time slept is a fixed 5 seconds per failure,
and the run proceeds past the loop exactly when one of the first five
attempts succeeds — otherwise the collector reports the failure and
returns. -/
theorem connect_retry_policy (oracle : Nat → Bool) :
    run_connect oracle =
      ((([0, 1, 2, 3, 4].takeWhile (fun k => !oracle k)).length),
       5 * ([0, 1, 2, 3, 4].takeWhile (fun k => !oracle k)).length,
       [0, 1, 2, 3, 4].any oracle) := by
  cases h0 : oracle 0 <;> cases h1 : oracle 1 <;> cases h2 : oracle 2 <;>
    cases h3 : oracle 3 <;> cases h4 : oracle 4 <;>
      simp [run_connect, retryLoop, h0, h1, h2, h3, h4, List.takeWhile]

theorem exchangeLoop_eq_find (l : List (String × String)) (b : String) :
    exchangeLoop l b = (l.find? (fun pe => strStartsWith b pe.1)).map Prod.snd := by
  induction l with
  | nil => rfl
  | cons pe rest ih =>
    obtain ⟨p, e⟩ := pe
    by_cases h : strStartsWith b p
    · rw [exchangeLoop, if_pos h, List.find?_cons_of_pos rest h]
      rfl
    · rw [exchangeLoop, if_neg h, List.find?_cons_of_neg rest (by simpa using h), ih]

/-- Claim C9: the exchange resolver is total (a plain function here;
every result is either the default or one of the table exchanges) and
computes exactly: strip the trailing digits, return the exchange of
the first table entry whose root prefixes the stripped symbol, else
the default `"CME"`; concretely `"ESU5"` strips to `"ESU"`, matches
prefix `"ES"`, and resolves to `"CME"`. -/
theorem exchange_resolver_first_match :
    (∀ s, get_exchange_for_symbol s =
      ((SYMBOL_EXCHANGE_MAP.find? (fun pe => strStartsWith (rstripDigits s) pe.1)).map
          Prod.snd).getD "CME") ∧
    (∀ s, get_exchange_for_symbol s = "CME" ∨
      get_exchange_for_symbol s ∈ SYMBOL_EXCHANGE_MAP.map Prod.snd) ∧
    get_exchange_for_symbol "ESU5" = "CME" ∧
    rstripDigits "ESU5" = "ESU" ∧
    strStartsWith "ESU" "ES" = true := by
  refine ⟨?_, ?_, by decide, by decide, by decide⟩
  · intro s
    unfold get_exchange_for_symbol
    rw [exchangeLoop_eq_find]
    cases h : SYMBOL_EXCHANGE_MAP.find? (fun pe => strStartsWith (rstripDigits s) pe.1) <;>
      simp [h]
  · intro s
    unfold get_exchange_for_symbol
    rw [exchangeLoop_eq_find]
    cases h : SYMBOL_EXCHANGE_MAP.find? (fun pe => strStartsWith (rstripDigits s) pe.1) with
    | none => left; rfl
    | some pe =>
      right
      simpa using List.mem_map_of_mem Prod.snd (List.mem_of_find?_eq_some h)

theorem setAdd_subset_and_len (st : List String) (x : String) :
    st ⊆ setAdd st x ∧ (setAdd st x).length ≤ st.length + 1 := by
  unfold setAdd
  split
  · exact ⟨List.Subset.refl st, Nat.le_succ _⟩
  · exact ⟨List.subset_cons_self _ _, Nat.le_refl _⟩

/-- Claim C10: every operation of either collector that can touch the
tracked subscription state — a startup-token subscription or a
control-queue poll in the plugin collector, a control-queue poll in
the binary collector — either leaves the set unchanged or adds exactly
one entry; no operation removes one, so a subscribed pair stays
subscribed for the rest of the run.  (The only removal routine in the
sources, `unsubscribe_market_data`, has no caller.) -/
theorem subscription_state_monotone :
    (∀ (op : TextOp) (st : List String),
      st ⊆ stepText op st ∧ (stepText op st).length ≤ st.length + 1) ∧
    (∀ (op : BinaryOp) (st : List String),
      st ⊆ stepBinary op st ∧ (stepBinary op st).length ≤ st.length + 1) := by
  constructor
  · intro op st
    have htr : st ⊆ st ∧ st.length ≤ st.length + 1 := ⟨List.Subset.refl st, Nat.le_succ _⟩
    cases op with
    | initToken tok sendOk =>
      simp only [stepText]
      cases (splitOnChar ':' tok.toList).map String.mk with
      | nil => exact htr
      | cons a rest =>
        cases rest with
        | nil =>
          cases sendOk
          · exact htr
          · exact setAdd_subset_and_len st tok
        | cons b rest2 =>
          cases rest2 with
          | nil =>
            cases sendOk
            · exact htr
            · exact setAdd_subset_and_len st tok
          | cons c rest3 => exact htr
    | poll msg sendOk =>
      cases msg with
      | none => exact htr
      | some r =>
        obtain ⟨sym, exch⟩ := r
        simp only [stepText, check_new_subscriptions]
        by_cases h : pyContains st (subKey sym exch)
        · rw [if_pos h]
          exact htr
        · rw [if_neg h]
          cases sendOk
          · exact htr
          · exact setAdd_subset_and_len st (subKey sym exch)
  · intro op st
    have htr : st ⊆ st ∧ st.length ≤ st.length + 1 := ⟨List.Subset.refl st, Nat.le_succ _⟩
    cases op with
    | poll msg connected =>
      cases msg with
      | none => exact htr
      | some sym =>
        simp only [stepBinary, check_new_binary]
        by_cases h : pyContains st sym
        · rw [if_pos h]
          exact htr
        · rw [if_neg h]
          refine ⟨List.subset_append_left st [sym], ?_⟩
          simp
